import Mathlib

/-!
Verification of the nMigen Xilinx 7-series vendor backend
(`nmigen/vendor/xilinx_7series.py`).

The development shallowly embeds the pieces of that file the verified
properties are about: the pin-buffer lowering algorithm (`_get_xdr_buffer`
and the `get_dff` / `get_iddr` / `get_oddr` helpers), the single-ended
output lowering (`get_output`), the two synchronizer generators
(`get_ff_sync`, `get_async_ff_sync`), the clock-constraint registration
(`add_clock_constraint`), the toolchain dispatch
(`__init__` / `required_tools` / `file_templates` / `command_templates`),
and the clock-constraint loops of the Vivado `.xdc` and Symbiflow `.sdc`
file templates.

Collaborator code that is part of the repository but not of this file
(`get_ineg` / `get_oneg` from `nmigen.vendor.util`, the base
`TemplatedPlatform` methods) is modelled from the specification; each such
definition is marked `Modelled from the spec:` in its doc comment.
-/

namespace X7

/-- Attribute values attached to signals.  The source stores every attribute
as a string; the numeric `str(delay * 1e9)` value written by the
synchronizer generators is modelled as an exact rational so that the
numeric property can be stated exactly. -/
inductive AttrVal where
  | str (s : String)
  | num (q : ℚ)
deriving DecidableEq, Repr

/-- A hardware value expression, as used for instance port bindings.
`Value.sig base suffix width` models a nMigen `Signal` whose name is
`base ++ suffix` (the source builds signal names as
`"{}_xdr_i".format(pin.name)` and similar); keeping base and suffix
separate mirrors that construction exactly. -/
inductive Value where
  | sig (base : String) (suffix : String) (width : Nat)
  | const (val : Nat) (width : Nat)
  | neg (v : Value)
  | bit (v : Value) (idx : Nat)
deriving DecidableEq, Repr

/-- Bit width of a value (`len(...)` in the source; indexing a multi-bit
value yields a 1-bit value). -/
def Value.width : Value → Nat
  | sig _ _ w => w
  | const _ w => w
  | neg v => v.width
  | bit _ _ => 1

/-- A nMigen `Signal` as allocated by the synchronizer generators:
name, width, reset value, reset-less flag and attribute dictionary
(represented as an association list in insertion order). -/
structure Signal where
  name : String
  width : Nat
  reset : Nat
  reset_less : Bool
  attrs : List (String × AttrVal)
deriving DecidableEq, Repr

/-- Parameter values of a primitive instantiation (`p_...=...` keyword
arguments of `Instance`): strings or integers. -/
inductive ParamVal where
  | str (s : String)
  | nat (n : Nat)
deriving DecidableEq, Repr

/-- A vendor primitive instantiation (`Instance(...)` in the source):
primitive type name, parameters (`p_...`), attributes (`a_...`), input
port bindings (`i_...`) and output port bindings (`o_...`). -/
structure Instance where
  type : String
  params : List (String × ParamVal)
  attrs : List (String × String)
  inputs : List (String × Value)
  outputs : List (String × Value)
deriving DecidableEq, Repr

/-! ## Clock-constraint facts and the clock-constraint file templates -/

/-- One accumulated clock-constraint fact, as iterated by
`platform.iter_clock_constraints()`: the constrained net, the external
port (when the clock comes straight from a port) and the frequency in
Hz. -/
structure ClockConstraintFact where
  netName : String
  portName : Option String
  frequency : ℚ
deriving DecidableEq, Repr

/-- One rendered `create_clock` line of a clock-constraint artifact:
the clock name used, the emitted period, and whether the line targets
`get_ports` or `get_nets`. -/
structure ClockLine where
  clockName : String
  period : ℚ
  targetKind : String
deriving DecidableEq, Repr

/-- The clock-constraint loop of the Vivado `\x7b\x7bname\x7d\x7d.xdc` file template
(`_vivado_file_templates`): every fact yields one `create_clock` line with
period `1000000000/frequency`; port-keyed facts are named after the port and
constrain `get_ports`, signal-keyed facts constrain `get_nets`.  The loop
and conditional directives of the template body are evaluated per the
external templating collaborator. -/
def vivadoXdcClockLines (facts : List ClockConstraintFact) : List ClockLine :=
  facts.map (fun f =>
    match f.portName with
    | some p => { clockName := p, period := 1000000000 / f.frequency, targetKind := "ports" }
    | none => { clockName := f.netName, period := 1000000000 / f.frequency, targetKind := "nets" })

/-- The clock-constraint loop of the Symbiflow `\x7b\x7bname\x7d\x7d.sdc` file template
(`_symbiflow_file_templates`): the body is guarded by
`if port_signal is none`, so only signal-keyed facts produce a
`create_clock` line (with period `1000000000/frequency`); port-keyed facts
produce nothing. -/
def symbiflowSdcClockLines (facts : List ClockConstraintFact) : List ClockLine :=
  facts.filterMap (fun f =>
    match f.portName with
    | some _ => none
    | none => some { clockName := f.netName, period := 1000000000 / f.frequency, targetKind := "nets" })

/-! ## Toolchain profile dispatch -/

/-- A per-toolchain file-template table: the artifact names whose template
bodies are defined in this source file (beyond the inherited base
build-script templates) together with the clock-constraint renderer of the
profile's clock-constraint artifact. -/
structure FileTemplates where
  templateNames : List String
  clockLines : List ClockConstraintFact → List ClockLine

/-- `_vivado_required_tools`. -/
def vivado_required_tools : List String := ["vivado"]

/-- `_symbiflow_required_tools`. -/
def symbiflow_required_tools : List String :=
  ["synth", "pack", "place", "route", "write_fasm", "write_bitstream"]

/-- `_vivado_file_templates`: artifact names defined there, and the
`\x7b\x7bname\x7d\x7d.xdc` clock-constraint renderer. -/
def vivadoFileTemplates : FileTemplates :=
  { templateNames :=
      ["build_\x7b\x7bname\x7d\x7d.sh", "\x7b\x7bname\x7d\x7d.v", "\x7b\x7bname\x7d\x7d.debug.v",
       "\x7b\x7bname\x7d\x7d.tcl", "\x7b\x7bname\x7d\x7d.xdc"],
    clockLines := vivadoXdcClockLines }

/-- `_symbiflow_file_templates`: artifact names defined there, and the
`\x7b\x7bname\x7d\x7d.sdc` clock-constraint renderer. -/
def symbiflowFileTemplates : FileTemplates :=
  { templateNames :=
      ["\x7b\x7bname\x7d\x7d.v", "\x7b\x7bname\x7d\x7d.debug.v", "\x7b\x7bname\x7d\x7d.pcf",
       "\x7b\x7bname\x7d\x7d.xdc", "\x7b\x7bname\x7d\x7d.sdc"],
    clockLines := symbiflowSdcClockLines }

/-- `_vivado_command_templates`: the external tool invoked by each command
template, in order. -/
def vivado_command_tools : List String := ["vivado"]

/-- `_symbiflow_command_templates`: the external tool invoked by each
command template, in order. -/
def symbiflow_command_tools : List String :=
  ["synth", "pack", "place", "route", "write_fasm", "write_bitstream"]

/-- The platform object: the only state fixed at construction is the chosen
toolchain name. -/
structure Xilinx7SeriesPlatform where
  toolchain : String
deriving DecidableEq, Repr

/-- `Xilinx7SeriesPlatform.__init__`: the toolchain name is validated with
`assert toolchain in ("Vivado", "Symbiflow")`; a failing assertion is a
fatal construction error, modelled as `none`. -/
def mkXilinx7SeriesPlatform (toolchain : String) : Option Xilinx7SeriesPlatform :=
  if toolchain = "Vivado" ∨ toolchain = "Symbiflow" then
    some { toolchain := toolchain }
  else
    none

/-- The `required_tools` property: dispatches on the stored toolchain name;
the trailing `assert False` (unreachable for a validly constructed
platform) is modelled as `none`. -/
def required_tools (p : Xilinx7SeriesPlatform) : Option (List String) :=
  if p.toolchain = "Vivado" then some vivado_required_tools
  else if p.toolchain = "Symbiflow" then some symbiflow_required_tools
  else none

/-- The `file_templates` property. -/
def file_templates (p : Xilinx7SeriesPlatform) : Option FileTemplates :=
  if p.toolchain = "Vivado" then some vivadoFileTemplates
  else if p.toolchain = "Symbiflow" then some symbiflowFileTemplates
  else none

/-- The `command_templates` property. -/
def command_templates (p : Xilinx7SeriesPlatform) : Option (List String) :=
  if p.toolchain = "Vivado" then some vivado_command_tools
  else if p.toolchain = "Symbiflow" then some symbiflow_command_tools
  else none

/-! ## Clock-constraint registration -/

/-- The platform-level accumulated constraint state: the list of
clock-constraint facts, keyed by the constrained signal's name. -/
structure PlatformState where
  clockConstraints : List (String × ℚ)
deriving DecidableEq, Repr

/-- Python dictionary assignment `attrs[k] = v` on an attribute dictionary
represented as an association list: an existing entry for `k` is
overwritten in place, otherwise the new entry is appended. -/
def attrSet (attrs : List (String × AttrVal)) (k : String) (v : AttrVal) :
    List (String × AttrVal) :=
  if attrs.any (fun q => q.1 == k) then
    attrs.map (fun q => if q.1 == k then (k, v) else q)
  else
    attrs ++ [(k, v)]

/-- Modelled from the spec: `TemplatedPlatform.add_clock_constraint` (the
base class lives outside this source file) registers the
(signal, frequency) clock-constraint fact with the platform. -/
def base_add_clock_constraint (st : PlatformState) (clock : Signal) (frequency : ℚ) :
    PlatformState :=
  { st with clockConstraints := st.clockConstraints ++ [(clock.name, frequency)] }

/-- `Xilinx7SeriesPlatform.add_clock_constraint`: first calls the base
registration, then sets `clock.attrs["keep"] = "TRUE"`.  Returns the new
platform state and the updated clock signal. -/
def add_clock_constraint (st : PlatformState) (clock : Signal) (frequency : ℚ) :
    PlatformState × Signal :=
  let st2 := base_add_clock_constraint st clock frequency
  (st2, { clock with attrs := attrSet clock.attrs "keep" (AttrVal.str "TRUE") })

/-! ## Pin requests and the pin-buffer lowering -/

/-- A pin request as consumed by `_get_xdr_buffer` and the `get_*` entry
points: name, direction (one of `"i"`, `"o"`, `"oe"`, `"io"`), bit width
and serialization level (`xdr`).  The record itself is part of the
external hardware-description object model; only the fields read by this
backend are modelled. -/
structure Pin where
  name : String
  dir : String
  width : Nat
  xdr : Nat
deriving DecidableEq, Repr

/-- The user-facing input value `pin.i`. -/
def Pin.i (p : Pin) : Value := Value.sig p.name "__i" p.width

/-- The even-phase input value `pin.i0` (level 2). -/
def Pin.i0 (p : Pin) : Value := Value.sig p.name "__i0" p.width

/-- The odd-phase input value `pin.i1` (level 2). -/
def Pin.i1 (p : Pin) : Value := Value.sig p.name "__i1" p.width

/-- The user-facing output value `pin.o`. -/
def Pin.o (p : Pin) : Value := Value.sig p.name "__o" p.width

/-- The even-phase output value `pin.o0` (level 2). -/
def Pin.o0 (p : Pin) : Value := Value.sig p.name "__o0" p.width

/-- The odd-phase output value `pin.o1` (level 2). -/
def Pin.o1 (p : Pin) : Value := Value.sig p.name "__o1" p.width

/-- The output-enable value `pin.oe` (1 bit). -/
def Pin.oe (p : Pin) : Value := Value.sig p.name "__oe" 1

/-- The input-path clock `pin.i_clk`. -/
def Pin.i_clk (p : Pin) : Value := Value.sig p.name "__i_clk" 1

/-- The output-path clock `pin.o_clk`. -/
def Pin.o_clk (p : Pin) : Value := Value.sig p.name "__o_clk" 1

/-- The buffer-side input signal `Signal(pin.width, name="{}_xdr_i".format(pin.name))`. -/
def Pin.xdr_i (p : Pin) : Value := Value.sig p.name "_xdr_i" p.width

/-- The buffer-side output signal `Signal(pin.width, name="{}_xdr_o".format(pin.name))`. -/
def Pin.xdr_o (p : Pin) : Value := Value.sig p.name "_xdr_o" p.width

/-- The buffer-side tristate-enable signal
`Signal(1, name="{}_xdr_t".format(pin.name))` — deliberately 1 bit wide
regardless of the pin width. -/
def Pin.xdr_t (p : Pin) : Value := Value.sig p.name "_xdr_t" 1

/-- The Python test `"i" in pin.dir` (substring membership), restricted to
the four legal directions `"i"`, `"o"`, `"oe"`, `"io"`, on which it
coincides with this disjunction. -/
def dirHasI (dir : String) : Bool := dir = "i" || dir = "io"

/-- The Python test `"o" in pin.dir`, restricted to the four legal
directions. -/
def dirHasO (dir : String) : Bool := dir = "o" || dir = "oe" || dir = "io"

/-- The Python test `pin.dir in ("oe", "io")`. -/
def dirHasT (dir : String) : Bool := dir = "oe" || dir = "io"

/-- Modelled from the spec: `get_ineg` from `nmigen.vendor.util` (the
module is not under `src/`).  It resolves the input-path inversion flag:
when `invert` is set the pad-adjacent input value is the negation of the
user-facing one, otherwise the value passes through unchanged (the fresh
intermediate signal the real helper allocates is collapsed into the
negation it denotes). -/
def get_ineg (i : Value) : Bool → Value
  | true => Value.neg i
  | false => i

/-- Modelled from the spec: `get_oneg` from `nmigen.vendor.util` (the
module is not under `src/`).  It resolves the output-path inversion flag:
when `invert` is set the pad-adjacent output value is the negation of the
user-facing one, otherwise the value passes through unchanged. -/
def get_oneg (o : Value) : Bool → Value
  | true => Value.neg o
  | false => o

/-- Modelled from the spec: `TemplatedPlatform._invert_if` (base class, not
under `src/`): returns the negation of the value when `invert` is set,
else the value itself. -/
def invert_if : Bool → Value → Value
  | true, v => Value.neg v
  | false, v => v

/-- One `FDCE` flip-flop instantiation as emitted by `get_dff`:
IOB-packed (`a_IOB="TRUE"`), clocked by `clk`, clock-enable tied to 1,
asynchronous clear tied to 0, data `d`, output `q`. -/
def fdce (clk d q : Value) : Instance :=
  { type := "FDCE"
    params := []
    attrs := [("IOB", "TRUE")]
    inputs := [("C", clk), ("CE", Value.const 1 1), ("CLR", Value.const 0 1), ("D", d)]
    outputs := [("Q", q)] }

/-- `_get_xdr_buffer.get_dff`: one `FDCE` per bit of `q`
(`for bit in range(len(q))`). -/
def get_dff (clk d q : Value) : List Instance :=
  (List.range q.width).map (fun bit => fdce clk (Value.bit d bit) (Value.bit q bit))

/-- One `IDDR` dual-output deserializer instantiation as emitted by
`get_iddr`. -/
def iddr (clk d q1 q2 : Value) : Instance :=
  { type := "IDDR"
    params := [("DDR_CLK_EDGE", ParamVal.str "SAME_EDGE_PIPELINED"),
               ("SRTYPE", ParamVal.str "ASYNC"),
               ("INIT_Q1", ParamVal.nat 0), ("INIT_Q2", ParamVal.nat 0)]
    attrs := []
    inputs := [("C", clk), ("CE", Value.const 1 1),
               ("S", Value.const 0 1), ("R", Value.const 0 1), ("D", d)]
    outputs := [("Q1", q1), ("Q2", q2)] }

/-- `_get_xdr_buffer.get_iddr`: one `IDDR` per bit of `q1`
(`for bit in range(len(q1))`). -/
def get_iddr (clk d q1 q2 : Value) : List Instance :=
  (List.range q1.width).map (fun bit =>
    iddr clk (Value.bit d bit) (Value.bit q1 bit) (Value.bit q2 bit))

/-- One `ODDR` two-input serializer instantiation as emitted by
`get_oddr`. -/
def oddr (clk d1 d2 q : Value) : Instance :=
  { type := "ODDR"
    params := [("DDR_CLK_EDGE", ParamVal.str "SAME_EDGE"),
               ("SRTYPE", ParamVal.str "ASYNC"), ("INIT", ParamVal.nat 0)]
    attrs := []
    inputs := [("C", clk), ("CE", Value.const 1 1),
               ("S", Value.const 0 1), ("R", Value.const 0 1), ("D1", d1), ("D2", d2)]
    outputs := [("Q", q)] }

/-- `_get_xdr_buffer.get_oddr`: one `ODDR` per bit of `q`
(`for bit in range(len(q))`). -/
def get_oddr (clk d1 d2 q : Value) : List Instance :=
  (List.range q.width).map (fun bit =>
    oddr clk (Value.bit d1 bit) (Value.bit d2 bit) (Value.bit q bit))

/-- The result of `_get_xdr_buffer`: the primitive instantiations added to
the module, and the returned `(i, o, t)` triple (each present only when
the corresponding direction is). -/
structure XdrResult where
  instances : List Instance
  i : Option Value
  o : Option Value
  t : Option Value
deriving DecidableEq, Repr

/-- `Xilinx7SeriesPlatform._get_xdr_buffer`.  The `assert i_invert is not
None` / `assert o_invert is not None` checks (fired when the corresponding
direction is present) and the trailing `assert False` for a serialization
level other than 0/1/2 are modelled as `none`.  At level 0 the returned
values are the (possibly inverted) pin values themselves and no primitive
is created; at level 1 each present direction gets a `get_dff` chain and a
tristate/inout request additionally gets a `get_dff` on the negated
output-enable into the 1-bit `t` signal; at level 2 the input path uses
`get_iddr`, the output path `get_oddr`, and the tristate-enable still uses
`get_dff`. -/
def get_xdr_buffer (pin : Pin) (i_invert o_invert : Option Bool) : Option XdrResult :=
  if dirHasI pin.dir ∧ i_invert = none then none
  else if dirHasO pin.dir ∧ o_invert = none then none
  else
    let iv := i_invert.getD false
    let ov := o_invert.getD false
    let pin_i := get_ineg pin.i iv
    let pin_i0 := get_ineg pin.i0 iv
    let pin_i1 := get_ineg pin.i1 iv
    let pin_o := get_oneg pin.o ov
    let pin_o0 := get_oneg pin.o0 ov
    let pin_o1 := get_oneg pin.o1 ov
    if pin.xdr = 0 then
      some { instances := []
             i := if dirHasI pin.dir then some pin_i else none
             o := if dirHasO pin.dir then some pin_o else none
             t := if dirHasT pin.dir then some (Value.neg pin.oe) else none }
    else if pin.xdr = 1 then
      some { instances :=
               (if dirHasI pin.dir then get_dff pin.i_clk pin.xdr_i pin_i else []) ++
               (if dirHasO pin.dir then get_dff pin.o_clk pin_o pin.xdr_o else []) ++
               (if dirHasT pin.dir then get_dff pin.o_clk (Value.neg pin.oe) pin.xdr_t else [])
             i := if dirHasI pin.dir then some pin.xdr_i else none
             o := if dirHasO pin.dir then some pin.xdr_o else none
             t := if dirHasT pin.dir then some pin.xdr_t else none }
    else if pin.xdr = 2 then
      some { instances :=
               (if dirHasI pin.dir then get_iddr pin.i_clk pin.xdr_i pin_i0 pin_i1 else []) ++
               (if dirHasO pin.dir then get_oddr pin.o_clk pin_o0 pin_o1 pin.xdr_o else []) ++
               (if dirHasT pin.dir then get_dff pin.o_clk (Value.neg pin.oe) pin.xdr_t else [])
             i := if dirHasI pin.dir then some pin.xdr_i else none
             o := if dirHasO pin.dir then some pin.xdr_o else none
             t := if dirHasT pin.dir then some pin.xdr_t else none }
    else none

/-- Modelled from the spec: the `OBUF` single-ended output buffer is the
vendor's electrically non-inverting pin-facing output cell; it passes its
`I` input through to its `O` output. -/
def obuf (iVal oVal : Value) : Instance :=
  { type := "OBUF", params := [], attrs := [],
    inputs := [("I", iVal)], outputs := [("O", oVal)] }

/-- The result of `get_output`: the primitive instantiations of the
returned module and the value combinationally driven onto the external
port (through the per-bit `OBUF`s under Vivado, through the direct
`port.eq(...)` assignment under Symbiflow). -/
structure GetOutputResult where
  instances : List Instance
  portDrive : Value
deriving DecidableEq, Repr

/-- `Xilinx7SeriesPlatform.get_output`: lowers the pin through
`_get_xdr_buffer(m, pin, o_invert=invert)`, then under Vivado instantiates
one `OBUF` per bit from `o` to the port, and under Symbiflow drives
`port.eq(self._invert_if(invert, o))`.  A pin without an output direction
would make the Python code fail when reading `o`; that is modelled as
`none`, as is the unreachable `assert False` toolchain branch. -/
def get_output (toolchain : String) (pin : Pin) (port : Value) (invert : Bool) :
    Option GetOutputResult :=
  match get_xdr_buffer pin none (some invert) with
  | none => none
  | some r =>
    match r.o with
    | none => none
    | some o =>
      if toolchain = "Vivado" then
        some { instances := r.instances ++
                 (List.range pin.width).map (fun bit => obuf (Value.bit o bit) (Value.bit port bit))
               portDrive := o }
      else if toolchain = "Symbiflow" then
        some { instances := r.instances, portDrive := invert_if invert o }
      else none

/-- Bitwise evaluation of a value expression under an environment mapping
each signal (by base name, suffix) and bit index to a boolean. -/
def evalBit (env : String → String → Nat → Bool) : Value → Nat → Bool
  | Value.sig b s _, k => env b s k
  | Value.const v _, k => Nat.testBit v k
  | Value.neg v, k => !(evalBit env v k)
  | Value.bit v i, _ => evalBit env v i

/-- Number of instantiations of primitive type `t` in a list. -/
def countType (t : String) (l : List Instance) : Nat :=
  (l.filter (fun inst => inst.type == t)).length

/-- `drivesInto base inst` holds when some output port of `inst` is bound
to a bit of the signal `base`. -/
def drivesInto (base : Value) (inst : Instance) : Bool :=
  inst.outputs.any (fun q =>
    match q.2 with
    | Value.bit b _ => decide (b = base)
    | _ => false)

/-! ## Synchronizer generators -/

/-- A value appearing in a synchronizer stage chain: the source signal
(`ff_sync.i` / `async_ff_sync.i`), its logical negation, the constant 0,
or one of the allocated stage signals. -/
inductive SVal where
  | src
  | negSrc
  | zero
  | stage (k : Nat)
deriving DecidableEq, Repr

/-- One synchronous assignment `m.d[domain] += flops[lhs].eq(rhs)` of a
stage chain. -/
structure StageAssign where
  domain : String
  lhs : Nat
  rhs : SVal
deriving DecidableEq, Repr

/-- The fields of the `FFSynchronizer` request read by `get_ff_sync`:
the source shape (`ff_sync.i.shape()`), `_stages`, `_reset`,
`_reset_less`, `_o_domain`, and the optional `_max_input_delay` bound in
seconds. -/
structure FFSyncReq where
  shape : Nat
  stages : Nat
  reset : Nat
  reset_less : Bool
  o_domain : String
  max_input_delay : Option ℚ
deriving DecidableEq, Repr

/-- The timing-exception attribute placed on stage 0: the false-path
marker when no maximum-input-delay bound is supplied, otherwise the
max-delay marker carrying `str(max_input_delay * 1e9)` (modelled as the
exact rational `d * 1000000000`). -/
def timingAttr : Option ℚ → String × AttrVal
  | none => ("nmigen.vivado.false_path", AttrVal.str "TRUE")
  | some d => ("nmigen.vivado.max_delay", AttrVal.num (d * 1000000000))

/-- One stage signal
`Signal(shape, name="stage{}".format(index), reset=reset,
reset_less=reset_less, attrs={"ASYNC_REG": "TRUE"})`.  The source then
executes `flops[0].attrs[...] = ...` once; building stage 0 directly with
the timing attribute appended yields the same attribute dictionary. -/
def stageSignal (shape reset : Nat) (rl : Bool) (d : Option ℚ) (index : Nat) : Signal :=
  let base : Signal :=
    { name := "stage" ++ toString index, width := shape, reset := reset,
      reset_less := rl, attrs := [("ASYNC_REG", AttrVal.str "TRUE")] }
  if index = 0 then { base with attrs := base.attrs ++ [timingAttr d] } else base

/-- The chained assignments `for i, o in zip((input, *flops), flops):
m.d[domain] += o.eq(i)`: zipping pairs assignment `j` with right-hand side
`input` when `j = 0` and `flops[j-1]` otherwise. -/
def chainAssigns (domain : String) (input : SVal) (stages : Nat) : List StageAssign :=
  (List.range stages).map (fun j =>
    { domain := domain, lhs := j, rhs := if j = 0 then input else SVal.stage (j - 1) })

/-- The module produced by `get_ff_sync`: the allocated stage signals, the
chained synchronous assignments, and the combinationally-driven output
(`ff_sync.o.eq(flops[-1])`). -/
structure FFSyncModule where
  flops : List Signal
  assigns : List StageAssign
  out : SVal
deriving DecidableEq, Repr

/-- `Xilinx7SeriesPlatform.get_ff_sync`.  A stage count of 0 would make
the Python code fail on `flops[0]`; that is modelled as `none`. -/
def get_ff_sync (s : FFSyncReq) : Option FFSyncModule :=
  if s.stages = 0 then none
  else
    some { flops := (List.range s.stages).map
             (stageSignal s.shape s.reset s.reset_less s.max_input_delay)
           assigns := chainAssigns s.o_domain SVal.src s.stages
           out := SVal.stage (s.stages - 1) }

/-- The fields of the `AsyncFFSynchronizer` request read by
`get_async_ff_sync`: `_stages`, `_o_domain`, `_edge` and the optional
`_max_input_delay` bound in seconds. -/
structure AsyncFFSyncReq where
  stages : Nat
  o_domain : String
  edge : String
  max_input_delay : Option ℚ
deriving DecidableEq, Repr

/-- The module produced by `get_async_ff_sync`: the stage signals, the
chained assignments in the private `"async_ff"` domain, the value driving
that domain's reset, and the output. -/
structure AsyncFFSyncModule where
  flops : List Signal
  assigns : List StageAssign
  resetDrive : SVal
  out : SVal
deriving DecidableEq, Repr

/-- `Xilinx7SeriesPlatform.get_async_ff_sync`: allocates the private
local `"async_ff"` clock domain, `Signal(1, name="stage{}", reset=1,
attrs={"ASYNC_REG": "TRUE"})` stage signals (stage 0 additionally carries
the timing-exception attribute), chains them from the constant 0
(`zip((0, *flops), flops)`), and drives the private domain's reset with
`async_ff_sync.i` when `_edge == "pos"` and with `~async_ff_sync.i`
otherwise.  A stage count of 0 is modelled as `none`. -/
def get_async_ff_sync (s : AsyncFFSyncReq) : Option AsyncFFSyncModule :=
  if s.stages = 0 then none
  else
    some { flops := (List.range s.stages).map (stageSignal 1 1 false s.max_input_delay)
           assigns := chainAssigns "async_ff" SVal.zero s.stages
           resetDrive := if s.edge = "pos" then SVal.src else SVal.negSrc
           out := SVal.stage (s.stages - 1) }

/-- Evaluation of a chain value over the source value and the current
stage-state vector. -/
def evalSVal (src : Bool) (st : List Bool) : SVal → Bool
  | SVal.src => src
  | SVal.negSrc => !src
  | SVal.zero => false
  | SVal.stage k => st.getD k false

/-- One synchronous clock edge of a stage chain whose `j`-th assignment
drives stage `j` (which `chainAssigns` guarantees): every stage
simultaneously takes the value of its assignment's right-hand side
evaluated on the old state. -/
def chainStep (assigns : List StageAssign) (src : Bool) (st : List Bool) : List Bool :=
  assigns.map (fun a => evalSVal src st a.rhs)

/-- `n` synchronous clock edges of a stage chain. -/
def chainRun (assigns : List StageAssign) (src : Bool) (st : List Bool) : Nat → List Bool
  | 0 => st
  | n + 1 => chainStep assigns src (chainRun assigns src st n)

/-! ## Helper lemmas about attribute dictionaries -/

theorem lookup_map_overwrite (k : String) (v : AttrVal)
    (l : List (String × AttrVal)) :
    List.lookup k (l.map (fun q => if q.1 == k then (k, v) else q)) =
      if l.any (fun q => q.1 == k) then some v else List.lookup k l := by
  induction l with
  | nil => simp
  | cons hd tl ih =>
    obtain ⟨a, b⟩ := hd
    by_cases hhd : a = k
    · subst hhd
      simp [List.lookup_cons, List.any_cons]
    · have h1 : (a == k) = false := beq_false_of_ne hhd
      have h2 : (k == a) = false := beq_false_of_ne (Ne.symm hhd)
      have hR : List.lookup k ((a, b) :: tl) = List.lookup k tl := by
        rw [List.lookup_cons, h2]
      have hL : List.lookup k (((a, b) :: tl).map (fun q => if q.1 == k then (k, v) else q)) =
          List.lookup k (tl.map (fun q => if q.1 == k then (k, v) else q)) := by
        rw [List.map_cons, if_neg (by simp [hhd]), List.lookup_cons, h2]
      rw [hL, ih, List.any_cons, h1, Bool.false_or, hR]

theorem lookup_append_last (k : String) (v : AttrVal)
    (l : List (String × AttrVal)) (hl : l.any (fun q => q.1 == k) = false) :
    List.lookup k (l ++ [(k, v)]) = some v := by
  induction l with
  | nil => simp [List.lookup_cons]
  | cons hd tl ih =>
    obtain ⟨a, b⟩ := hd
    simp only [List.any_cons, Bool.or_eq_false_iff] at hl
    have h2 : (k == a) = false :=
      beq_false_of_ne (Ne.symm (ne_of_beq_false hl.1))
    rw [List.cons_append, List.lookup_cons, h2]
    exact ih hl.2

theorem lookup_attrSet (attrs : List (String × AttrVal)) (k : String) (v : AttrVal) :
    List.lookup k (attrSet attrs k v) = some v := by
  unfold attrSet
  by_cases h : attrs.any (fun q => q.1 == k)
  · simp only [h, if_true]
    rw [lookup_map_overwrite]
    simp [h]
  · simp only [h, if_false]
    apply lookup_append_last
    revert h
    cases attrs.any (fun q => q.1 == k) <;> simp

/-! ## Theorems: clock-constraint registration (C6) -/

/-- C6: After every call to `add_clock_constraint(clock, frequency)`, the
constrained clock signal's attribute map contains the key `"keep"` with
value `"TRUE"`, in addition to the clock-constraint fact registered with
the base platform. -/
theorem add_clock_constraint_keep (st : PlatformState) (clock : Signal) (frequency : ℚ) :
    List.lookup "keep" (add_clock_constraint st clock frequency).2.attrs =
      some (AttrVal.str "TRUE") ∧
    (clock.name, frequency) ∈ (add_clock_constraint st clock frequency).1.clockConstraints := by
  constructor
  · exact lookup_attrSet clock.attrs "keep" (AttrVal.str "TRUE")
  · simp [add_clock_constraint, base_add_clock_constraint]

/-! ## Theorems: toolchain dispatch (C5) -/

/-- C5: Platform construction succeeds exactly for the toolchain names
`"Vivado"` and `"Symbiflow"` and fails fatally for any other value; after
construction, the three profile-scoped tables (`required_tools`,
`file_templates`, `command_templates`) each return exactly the table set
belonging to the chosen toolchain (the model is pure, so the tables cannot
change during the platform's lifetime). -/
theorem toolchain_dispatch (t : String) :
    ((mkXilinx7SeriesPlatform t).isSome ↔ (t = "Vivado" ∨ t = "Symbiflow")) ∧
    (∀ p, mkXilinx7SeriesPlatform t = some p →
      p.toolchain = t ∧
      (t = "Vivado" →
        required_tools p = some vivado_required_tools ∧
        file_templates p = some vivadoFileTemplates ∧
        command_templates p = some vivado_command_tools) ∧
      (t = "Symbiflow" →
        required_tools p = some symbiflow_required_tools ∧
        file_templates p = some symbiflowFileTemplates ∧
        command_templates p = some symbiflow_command_tools)) := by
  constructor
  · unfold mkXilinx7SeriesPlatform
    by_cases h : t = "Vivado" ∨ t = "Symbiflow" <;> simp [h]
  · intro p hp
    unfold mkXilinx7SeriesPlatform at hp
    by_cases h : t = "Vivado" ∨ t = "Symbiflow"
    · simp only [h, if_true, Option.some.injEq] at hp
      subst hp
      refine ⟨rfl, ?_, ?_⟩
      · intro hv
        subst hv
        exact ⟨rfl, rfl, rfl⟩
      · intro hs
        subst hs
        refine ⟨?_, ?_, ?_⟩ <;> simp [required_tools, file_templates, command_templates]
    · simp [h] at hp

/-- Witness for C5: applying the dispatch theorem at the concrete
toolchain `"Vivado"`. -/
theorem toolchain_dispatch_witness :
    required_tools { toolchain := "Vivado" } = some vivado_required_tools :=
  (((toolchain_dispatch "Vivado").2 { toolchain := "Vivado" } rfl).2.1 rfl).1

/-! ## Theorems: clock-period emission (C4) -/

/-- Counterexample to C4 as stated: under the Symbiflow profile, a
port-keyed clock-constraint fact (here one registered at 100 MHz) emits no
`create_clock` line at all in the rendered `\x7b\x7bname\x7d\x7d.sdc`
clock-constraint artifact, because the template body is guarded by
`if port_signal is none`. -/
theorem clock_period_lines_cex :
    symbiflowSdcClockLines
        [{ netName := "clk", portName := some "clk_port", frequency := 100000000 }] = [] ∧
    (file_templates { toolchain := "Symbiflow" }).map
        (fun ft => ft.clockLines
          [{ netName := "clk", portName := some "clk_port", frequency := 100000000 }]) =
      some [] := by
  constructor
  · rfl
  · rfl

/-- C4 (amended): Under the Vivado profile, every accumulated
clock-constraint fact, whether signal-keyed or port-keyed, yields a
`create_clock` line whose period equals `1000000000 / frequency`; under the
Symbiflow profile only the signal-keyed facts yield such a line (a
port-keyed fact is silently omitted), again with period
`1000000000 / frequency`.  In particular a signal-keyed constraint at
100,000,000 Hz is emitted with period 10. -/
theorem clock_period_lines (facts : List ClockConstraintFact) (f : ClockConstraintFact)
    (hf : f ∈ facts) (ftV ftS : FileTemplates)
    (hV : file_templates { toolchain := "Vivado" } = some ftV)
    (hS : file_templates { toolchain := "Symbiflow" } = some ftS) :
    (∃ l ∈ ftV.clockLines facts,
        l.period = 1000000000 / f.frequency ∧
        l.clockName = (match f.portName with | some p => p | none => f.netName)) ∧
    (f.portName = none →
      ∃ l ∈ ftS.clockLines facts,
        l.period = 1000000000 / f.frequency ∧ l.clockName = f.netName) ∧
    ((∀ g ∈ facts, g.portName ≠ none) → ftS.clockLines facts = []) ∧
    ftV.clockLines [{ netName := "clk", portName := none, frequency := 100000000 }] =
      [{ clockName := "clk", period := 10, targetKind := "nets" }] := by
  have hv2 : ftV = vivadoFileTemplates := by
    simpa [file_templates] using hV.symm
  have hs2 : ftS = symbiflowFileTemplates := by
    simpa [file_templates] using hS.symm
  subst hv2
  subst hs2
  refine ⟨?_, ?_, ?_, ?_⟩
  · cases hp : f.portName with
    | some p =>
      have hmem : ({ clockName := p, period := 1000000000 / f.frequency, targetKind := "ports" } : ClockLine) ∈ vivadoXdcClockLines facts := by
        unfold vivadoXdcClockLines
        exact List.mem_map.mpr ⟨f, hf, by simp [hp]⟩
      exact ⟨_, hmem, rfl, by simp [hp]⟩
    | none =>
      have hmem : ({ clockName := f.netName, period := 1000000000 / f.frequency, targetKind := "nets" } : ClockLine) ∈ vivadoXdcClockLines facts := by
        unfold vivadoXdcClockLines
        exact List.mem_map.mpr ⟨f, hf, by simp [hp]⟩
      exact ⟨_, hmem, rfl, by simp [hp]⟩
  · intro hnone
    have hmem : ({ clockName := f.netName, period := 1000000000 / f.frequency, targetKind := "nets" } : ClockLine) ∈ symbiflowSdcClockLines facts := by
      unfold symbiflowSdcClockLines
      exact List.mem_filterMap.mpr ⟨f, hf, by simp [hnone]⟩
    exact ⟨_, hmem, rfl, rfl⟩
  · intro hall
    show List.filterMap _ _ = _
    apply List.filterMap_eq_nil_iff.mpr
    intro g hg
    cases hp : g.portName with
    | none => exact absurd hp (hall g hg)
    | some q => simp [hp]
  · show vivadoXdcClockLines _ = _
    unfold vivadoXdcClockLines
    simp only [List.map_cons, List.map_nil]
    norm_num

/-- Witness for the amended C4: a concrete port-keyed fact under the
Symbiflow profile is omitted from the rendered clock-constraint artifact. -/
theorem clock_period_lines_witness :
    symbiflowFileTemplates.clockLines
        [{ netName := "clk", portName := some "clk_port", frequency := 100000000 }] = [] :=
  (clock_period_lines
      [{ netName := "clk", portName := some "clk_port", frequency := 100000000 }]
      { netName := "clk", portName := some "clk_port", frequency := 100000000 }
      (by simp) vivadoFileTemplates symbiflowFileTemplates rfl rfl).2.2.1
    (by intro g hg; simp at hg; subst hg; simp)

/-! ## Helper lemmas about the pin-buffer lowering -/

theorem width_get_ineg (i : Value) (b : Bool) : (get_ineg i b).width = i.width := by
  cases b <;> rfl

theorem width_get_oneg (o : Value) (b : Bool) : (get_oneg o b).width = o.width := by
  cases b <;> rfl

theorem length_get_dff (clk d q : Value) : (get_dff clk d q).length = q.width := by
  simp [get_dff]

theorem countType_append (t : String) (a b : List Instance) :
    countType t (a ++ b) = countType t a + countType t b := by
  simp [countType, List.filter_append]

theorem countType_fdce_get_dff (clk d q : Value) :
    countType "FDCE" (get_dff clk d q) = q.width := by
  unfold countType
  rw [List.filter_eq_self.mpr]
  · exact length_get_dff clk d q
  · intro inst hinst
    obtain ⟨k, hk, rfl⟩ := List.mem_map.mp hinst
    rfl

theorem filter_drivesInto_get_dff (clk d q base : Value) :
    (get_dff clk d q).filter (drivesInto base) =
      if q = base then get_dff clk d q else [] := by
  by_cases h : q = base
  · subst h
    rw [if_pos rfl]
    apply List.filter_eq_self.mpr
    intro a ha
    obtain ⟨k, hk, rfl⟩ := List.mem_map.mp ha
    simp [drivesInto, fdce]
  · rw [if_neg h]
    apply List.filter_eq_nil_iff.mpr
    intro a ha
    obtain ⟨k, hk, rfl⟩ := List.mem_map.mp ha
    simp [drivesInto, fdce, h]

theorem filter_drivesInto_get_iddr (clk d q1 q2 base : Value)
    (h1 : q1 ≠ base) (h2 : q2 ≠ base) :
    (get_iddr clk d q1 q2).filter (drivesInto base) = [] := by
  apply List.filter_eq_nil_iff.mpr
  intro a ha
  obtain ⟨k, hk, rfl⟩ := List.mem_map.mp ha
  simp [drivesInto, iddr, h1, h2]

theorem filter_drivesInto_get_oddr (clk d1 d2 q base : Value) (h : q ≠ base) :
    (get_oddr clk d1 d2 q).filter (drivesInto base) = [] := by
  apply List.filter_eq_nil_iff.mpr
  intro a ha
  obtain ⟨k, hk, rfl⟩ := List.mem_map.mp ha
  simp [drivesInto, oddr, h]

theorem sig_ne_of_suffix_ne {base s1 s2 : String} {w1 w2 : Nat} (h : s1 ≠ s2) :
    Value.sig base s1 w1 ≠ Value.sig base s2 w2 := by
  intro he
  injection he with hb hs hw
  exact h hs

theorem ineg_ne_sig (b : String) (s1 : String) (w1 : Nat) (iv : Bool)
    {s2 : String} {w2 : Nat} (h : s1 ≠ s2) :
    get_ineg (Value.sig b s1 w1) iv ≠ Value.sig b s2 w2 := by
  cases iv
  · exact sig_ne_of_suffix_ne h
  · intro hc
    exact Value.noConfusion hc

theorem oneg_ne_sig (b : String) (s1 : String) (w1 : Nat) (ov : Bool)
    {s2 : String} {w2 : Nat} (h : s1 ≠ s2) :
    get_oneg (Value.sig b s1 w1) ov ≠ Value.sig b s2 w2 := by
  cases ov
  · exact sig_ne_of_suffix_ne h
  · intro hc
    exact Value.noConfusion hc

/-! ## Theorems: level-1 register counts (C1) -/

/-- Counterexample to C1 as stated: for a level-1 `io` request of width 2,
`_get_xdr_buffer` creates 5 FDCE primitives, not the 2×W + W = 6 the claim
predicts — the tristate-enable is a single 1-bit signal, so only one
enable register is created regardless of the width. -/
theorem level1_io_register_count_cex :
    (get_xdr_buffer { name := "p", dir := "io", width := 2, xdr := 1 }
        (some false) (some false)).map (fun r => countType "FDCE" r.instances) = some 5 ∧
    ((5 : Nat) = 2 * 2 + 2 → False) := by
  constructor
  · rfl
  · decide

/-- C1 (amended): For every level-1 pin request with both input and output
directions present (direction `"io"`) of width W, `_get_xdr_buffer` adds
exactly 2×W + 1 FDCE register primitives: W on the input path, W on the
output path, plus exactly one FDCE enable register fed the negated
output-enable — the tristate-enable is a single shared 1-bit signal, so
one enable register is created regardless of W (not W of them). -/
theorem level1_io_register_count (p : Pin) (iv ov : Bool) (r : XdrResult)
    (hdir : p.dir = "io") (hxdr : p.xdr = 1)
    (h : get_xdr_buffer p (some iv) (some ov) = some r) :
    countType "FDCE" r.instances = 2 * p.width + 1 ∧
    (r.instances.filter (drivesInto (get_ineg p.i iv))).length = p.width ∧
    (r.instances.filter (drivesInto p.xdr_o)).length = p.width ∧
    r.instances.filter (drivesInto p.xdr_t) =
      [fdce p.o_clk (Value.bit (Value.neg p.oe) 0) (Value.bit p.xdr_t 0)] := by
  simp only [get_xdr_buffer, hdir, hxdr, dirHasI, dirHasO, dirHasT] at h
  simp at h
  subst h
  dsimp only
  have hio : get_ineg p.i iv ≠ p.xdr_o := ineg_ne_sig p.name "__i" p.width iv (by decide)
  have hit : get_ineg p.i iv ≠ p.xdr_t := ineg_ne_sig p.name "__i" p.width iv (by decide)
  have hoi : p.xdr_o ≠ get_ineg p.i iv := fun hc => hio hc.symm
  have hti : p.xdr_t ≠ get_ineg p.i iv := fun hc => hit hc.symm
  have hot : p.xdr_o ≠ p.xdr_t := sig_ne_of_suffix_ne (by decide)
  have hto : p.xdr_t ≠ p.xdr_o := sig_ne_of_suffix_ne (by decide)
  refine ⟨?_, ?_, ?_, ?_⟩
  · rw [countType_append, countType_append, countType_fdce_get_dff,
      countType_fdce_get_dff, countType_fdce_get_dff, width_get_ineg]
    simp [Pin.i, Pin.xdr_o, Pin.xdr_t, Value.width]
    omega
  · rw [List.filter_append, List.filter_append, filter_drivesInto_get_dff,
      filter_drivesInto_get_dff, filter_drivesInto_get_dff,
      if_pos rfl, if_neg hoi, if_neg hti]
    simp [length_get_dff, width_get_ineg, Pin.i, Value.width]
  · rw [List.filter_append, List.filter_append, filter_drivesInto_get_dff,
      filter_drivesInto_get_dff, filter_drivesInto_get_dff,
      if_neg hio, if_pos rfl, if_neg hto]
    simp [length_get_dff, Pin.xdr_o, Value.width]
  · rw [List.filter_append, List.filter_append, filter_drivesInto_get_dff,
      filter_drivesInto_get_dff, filter_drivesInto_get_dff,
      if_neg hit, if_neg hot, if_pos rfl]
    simp [get_dff, Pin.xdr_t, Value.width, List.range_succ]

/-- Witness for the amended C1: the width-1 `io` request, where the count
is 2×1 + 1 = 3. -/
theorem level1_io_register_count_witness :
    countType "FDCE" (((get_xdr_buffer { name := "px", dir := "io", width := 1, xdr := 1 }
        (some false) (some false)).get (by decide)).instances) = 2 * 1 + 1 :=
  (level1_io_register_count _ false false _ rfl rfl (Option.some_get _).symm).1

/-! ## Theorems: level-2 input deserializers (C7) -/

/-- C7: For every level-2 input request of width W, `_get_xdr_buffer`
instantiates exactly W IDDR deserializer primitives (the whole instance
list consists of them), each configured with
`DDR_CLK_EDGE = "SAME_EDGE_PIPELINED"`, `SRTYPE = "ASYNC"`,
`INIT_Q1 = 0` and `INIT_Q2 = 0`, each clocked by the single input clock
with a single data input `D` and producing the two phase outputs `Q1` and
`Q2`. -/
theorem level2_input_iddr (p : Pin) (iv : Bool) (r : XdrResult)
    (hdir : p.dir = "i") (hxdr : p.xdr = 2)
    (h : get_xdr_buffer p (some iv) none = some r) :
    r.instances.length = p.width ∧
    ∀ inst ∈ r.instances,
      inst.type = "IDDR" ∧
      List.lookup "DDR_CLK_EDGE" inst.params = some (ParamVal.str "SAME_EDGE_PIPELINED") ∧
      List.lookup "SRTYPE" inst.params = some (ParamVal.str "ASYNC") ∧
      List.lookup "INIT_Q1" inst.params = some (ParamVal.nat 0) ∧
      List.lookup "INIT_Q2" inst.params = some (ParamVal.nat 0) ∧
      List.lookup "C" inst.inputs = some p.i_clk ∧
      (List.lookup "D" inst.inputs).isSome = true ∧
      (List.lookup "Q1" inst.outputs).isSome = true ∧
      (List.lookup "Q2" inst.outputs).isSome = true := by
  simp only [get_xdr_buffer, hdir, hxdr, dirHasI, dirHasO, dirHasT] at h
  simp at h
  subst h
  dsimp only
  constructor
  · simp [get_iddr, width_get_ineg, Pin.i0, Value.width]
  · intro inst hinst
    obtain ⟨k, hk, rfl⟩ := List.mem_map.mp hinst
    refine ⟨rfl, ?_, ?_, ?_, ?_, ?_, ?_, ?_, ?_⟩ <;> simp [iddr, List.lookup_cons]

/-- Witness for C7: a width-1 level-2 input request yields one IDDR. -/
theorem level2_input_iddr_witness :
    (((get_xdr_buffer { name := "py", dir := "i", width := 1, xdr := 2 }
        (some false) none).get (by decide)).instances).length = 1 :=
  (level2_input_iddr _ false _ rfl rfl (Option.some_get _).symm).1

/-! ## Theorems: tristate-enable lowering (C8) -/

/-- C8: For every tristate (`"oe"`) or inout (`"io"`) pin request, the
tristate-enable equals the logical negation of the output-enable: at
level 0 it is the combinational negation with no primitive created; at
levels 1 and 2 the 1-bit `t` signal is driven by exactly one primitive,
and that primitive is a level-1-style FDCE (never a double-rate one)
whose data input is the negated output-enable, clocked by the output
clock. -/
theorem tristate_enable_negation (p : Pin) (iv : Option Bool) (ov : Bool) (r : XdrResult)
    (hdir : p.dir = "oe" ∨ p.dir = "io")
    (h : get_xdr_buffer p iv (some ov) = some r) :
    (p.xdr = 0 → r.t = some (Value.neg p.oe) ∧ r.instances = []) ∧
    (p.xdr = 1 ∨ p.xdr = 2 →
      r.t = some p.xdr_t ∧
      r.instances.filter (drivesInto p.xdr_t) =
        [fdce p.o_clk (Value.bit (Value.neg p.oe) 0) (Value.bit p.xdr_t 0)]) := by
  have hot : p.xdr_o ≠ p.xdr_t := sig_ne_of_suffix_ne (by decide)
  have htd : (get_dff p.o_clk (Value.neg p.oe) p.xdr_t).filter (drivesInto p.xdr_t) =
      [fdce p.o_clk (Value.bit (Value.neg p.oe) 0) (Value.bit p.xdr_t 0)] := by
    rw [filter_drivesInto_get_dff, if_pos rfl]
    simp [get_dff, Pin.xdr_t, Value.width, List.range_succ]
  constructor
  · intro h0
    cases hdir with
    | inl hoe =>
      simp only [get_xdr_buffer, hoe, h0, dirHasI, dirHasO, dirHasT] at h
      simp at h
      subst h
      exact ⟨rfl, rfl⟩
    | inr hio =>
      cases iv with
      | none =>
        simp only [get_xdr_buffer, hio, h0, dirHasI, dirHasO, dirHasT] at h
        simp at h
      | some ivb =>
        simp only [get_xdr_buffer, hio, h0, dirHasI, dirHasO, dirHasT] at h
        simp at h
        subst h
        exact ⟨rfl, rfl⟩
  · intro h12
    cases h12 with
    | inl h1 =>
      cases hdir with
      | inl hoe =>
        simp only [get_xdr_buffer, hoe, h1, dirHasI, dirHasO, dirHasT] at h
        simp at h
        subst h
        refine ⟨rfl, ?_⟩
        dsimp only
        rw [List.filter_append, filter_drivesInto_get_dff, if_neg hot, htd]
        simp
      | inr hio =>
        cases iv with
        | none =>
          simp only [get_xdr_buffer, hio, h1, dirHasI, dirHasO, dirHasT] at h
          simp at h
        | some ivb =>
          have hit : get_ineg p.i ivb ≠ p.xdr_t :=
            ineg_ne_sig p.name "__i" p.width ivb (by decide)
          simp only [get_xdr_buffer, hio, h1, dirHasI, dirHasO, dirHasT] at h
          simp at h
          subst h
          refine ⟨rfl, ?_⟩
          dsimp only
          rw [List.filter_append, List.filter_append,
            filter_drivesInto_get_dff, if_neg hit,
            filter_drivesInto_get_dff, if_neg hot, htd]
          simp
    | inr h2 =>
      cases hdir with
      | inl hoe =>
        simp only [get_xdr_buffer, hoe, h2, dirHasI, dirHasO, dirHasT] at h
        simp at h
        subst h
        refine ⟨rfl, ?_⟩
        dsimp only
        rw [List.filter_append, filter_drivesInto_get_oddr _ _ _ _ _ hot, htd]
        simp
      | inr hio =>
        cases iv with
        | none =>
          simp only [get_xdr_buffer, hio, h2, dirHasI, dirHasO, dirHasT] at h
          simp at h
        | some ivb =>
          have hi0t : get_ineg p.i0 ivb ≠ p.xdr_t :=
            ineg_ne_sig p.name "__i0" p.width ivb (by decide)
          have hi1t : get_ineg p.i1 ivb ≠ p.xdr_t :=
            ineg_ne_sig p.name "__i1" p.width ivb (by decide)
          simp only [get_xdr_buffer, hio, h2, dirHasI, dirHasO, dirHasT] at h
          simp at h
          subst h
          refine ⟨rfl, ?_⟩
          dsimp only
          rw [List.filter_append, List.filter_append,
            filter_drivesInto_get_iddr _ _ _ _ _ hi0t hi1t,
            filter_drivesInto_get_oddr _ _ _ _ _ hot, htd]
          simp

/-- Witness for C8: a width-1 level-1 tristate request, whose returned
tristate-enable is the dedicated 1-bit `t` signal. -/
theorem tristate_enable_negation_witness :
    ((get_xdr_buffer { name := "pz", dir := "oe", width := 1, xdr := 1 }
        none (some false)).get (by decide)).t = some (Value.sig "pz" "_xdr_t" 1) :=
  ((tristate_enable_negation _ none false _ (Or.inl rfl) (Option.some_get _).symm).2
    (Or.inl rfl)).1

/-! ## Theorems: Symbiflow output double inversion (C9) -/

/-- C9: Under the Symbiflow profile, `get_output` applies the output
inversion twice — once inside `_get_xdr_buffer` via `o_invert` /
`get_oneg` and once via `_invert_if` when driving the port — so for a
level-0 single-ended output request with the invert flag set, the value
driven onto the port is the double negation of `pin.o`, which evaluates
to the uninverted `pin.o`; under the Vivado profile the port receives the
single negation. -/
theorem symbiflow_output_double_inversion (p : Pin) (port : Value) (rs rv : GetOutputResult)
    (hdir : p.dir = "o") (hxdr : p.xdr = 0)
    (hs : get_output "Symbiflow" p port true = some rs)
    (hv : get_output "Vivado" p port true = some rv) :
    rs.portDrive = Value.neg (Value.neg p.o) ∧
    rv.portDrive = Value.neg p.o ∧
    (∀ (env : String → String → Nat → Bool) (k : Nat),
      evalBit env rs.portDrive k = evalBit env p.o k ∧
      evalBit env rv.portDrive k = !(evalBit env p.o k)) := by
  simp only [get_output, get_xdr_buffer, hdir, hxdr, dirHasI, dirHasO, dirHasT,
    get_oneg, invert_if] at hs hv
  simp at hs hv
  subst hs
  subst hv
  refine ⟨rfl, rfl, ?_⟩
  intro env k
  simp [evalBit]

/-- Witness for C9: a concrete width-1 level-0 output request with the
invert flag set; the Symbiflow port drive is the double negation. -/
theorem symbiflow_output_double_inversion_witness :
    ((get_output "Symbiflow" { name := "pw", dir := "o", width := 1, xdr := 0 }
        (Value.sig "port" "" 1) true).get (by decide)).portDrive =
      Value.neg (Value.neg (Value.sig "pw" "__o" 1)) :=
  (symbiflow_output_double_inversion _ (Value.sig "port" "" 1) _
      ((get_output "Vivado" { name := "pw", dir := "o", width := 1, xdr := 0 }
        (Value.sig "port" "" 1) true).get (by decide))
      rfl rfl (Option.some_get _).symm (Option.some_get _).symm).1

/-! ## Helper lemmas about the synchronizer stage chains -/

theorem chainRun_zero_chain (S : Nat) (src : Bool) (n : Nat) :
    chainRun (chainAssigns "async_ff" SVal.zero S) src (List.replicate S true) n =
      (List.range S).map (fun j => decide (n ≤ j)) := by
  induction n with
  | zero =>
    show List.replicate S true = _
    symm
    apply List.eq_replicate_iff.mpr
    constructor
    · simp
    · intro b hb
      obtain ⟨j, hj, rfl⟩ := List.mem_map.mp hb
      simp
  | succ n ih =>
    show chainStep _ src _ = _
    rw [ih]
    unfold chainStep chainAssigns
    rw [List.map_map]
    apply List.map_congr_left
    intro j hj
    have hjS : j < S := List.mem_range.mp hj
    by_cases hj0 : j = 0
    · subst hj0
      simp [evalSVal]
    · simp only [Function.comp, if_neg hj0]
      show evalSVal src _ (SVal.stage (j - 1)) = _
      have hj1 : j - 1 < S := by omega
      simp only [evalSVal]
      rw [List.getD_eq_getElem?_getD, List.getElem?_map, List.getElem?_range hj1]
      simp only [Option.map_some', Option.getD_some]
      rw [decide_eq_decide]
      omega

theorem getLast?_map_range (f : Nat → Bool) (S : Nat) (hS : 0 < S) :
    ((List.range S).map f).getLast? = some (f (S - 1)) := by
  rw [List.getLast?_eq_getElem?]
  have hlen : ((List.range S).map f).length = S := by simp
  rw [hlen, List.getElem?_map, List.getElem?_range (by omega)]
  rfl

/-! ## Theorems: multi-stage synchronizer (C2) -/

/-- C2: `get_ff_sync` with stage count S allocates exactly S stage
signals, chained in the target domain (assignment k drives stage k from
the source when k = 0 and from stage k-1 otherwise), with the output the
last stage; every stage signal carries the `ASYNC_REG` anti-collapse
attribute; the timing-exception attributes appear on no stage other than
stage 0, and stage 0 carries exactly the false-path marker when no
maximum-input-delay bound is supplied and otherwise the max-delay marker
whose value is the supplied bound in seconds times 1e9. -/
theorem ff_sync_stage_attrs (s : FFSyncReq) (mod : FFSyncModule)
    (h : get_ff_sync s = some mod) :
    mod.flops.length = s.stages ∧
    mod.assigns.length = s.stages ∧
    (∀ k (hk : k < mod.assigns.length),
      mod.assigns.get ⟨k, hk⟩ =
        { domain := s.o_domain, lhs := k,
          rhs := if k = 0 then SVal.src else SVal.stage (k - 1) }) ∧
    mod.out = SVal.stage (s.stages - 1) ∧
    (∀ k (hk : k < mod.flops.length),
      List.lookup "ASYNC_REG" (mod.flops.get ⟨k, hk⟩).attrs = some (AttrVal.str "TRUE")) ∧
    (∀ k (hk : k < mod.flops.length), k ≠ 0 →
      List.lookup "nmigen.vivado.false_path" (mod.flops.get ⟨k, hk⟩).attrs = none ∧
      List.lookup "nmigen.vivado.max_delay" (mod.flops.get ⟨k, hk⟩).attrs = none) ∧
    (∀ h0 : 0 < mod.flops.length,
      (s.max_input_delay = none →
        List.lookup "nmigen.vivado.false_path" (mod.flops.get ⟨0, h0⟩).attrs =
          some (AttrVal.str "TRUE") ∧
        List.lookup "nmigen.vivado.max_delay" (mod.flops.get ⟨0, h0⟩).attrs = none) ∧
      (∀ d, s.max_input_delay = some d →
        List.lookup "nmigen.vivado.max_delay" (mod.flops.get ⟨0, h0⟩).attrs =
          some (AttrVal.num (d * 1000000000)) ∧
        List.lookup "nmigen.vivado.false_path" (mod.flops.get ⟨0, h0⟩).attrs = none)) := by
  by_cases hs : s.stages = 0
  · simp [get_ff_sync, hs] at h
  · simp only [get_ff_sync, if_neg hs, Option.some.injEq] at h
    subst h
    refine ⟨by simp, by simp [chainAssigns], ?_, rfl, ?_, ?_, ?_⟩
    · intro k hk
      simp [chainAssigns]
    · intro k hk
      simp only [List.get_eq_getElem, List.getElem_map, List.getElem_range]
      by_cases hk0 : k = 0
      · subst hk0
        cases hd : s.max_input_delay <;>
          simp [stageSignal, timingAttr, List.lookup_cons, hd]
      · simp [stageSignal, hk0, List.lookup_cons]
    · intro k hk hk0
      simp only [List.get_eq_getElem, List.getElem_map, List.getElem_range]
      constructor <;> simp [stageSignal, hk0, List.lookup_cons]
    · intro h0
      simp only [List.get_eq_getElem, List.getElem_map, List.getElem_range]
      constructor
      · intro hd
        constructor <;> simp [stageSignal, timingAttr, hd, List.lookup_cons]
      · intro d hd
        constructor <;> simp [stageSignal, timingAttr, hd, List.lookup_cons]

/-- Witness for C2: a 2-stage request with no delay bound; the output is
stage 1. -/
theorem ff_sync_stage_attrs_witness :
    ((get_ff_sync { shape := 1, stages := 2, reset := 0, reset_less := false, o_domain := "sync", max_input_delay := none }).get (by decide)).out = SVal.stage 1 :=
  (ff_sync_stage_attrs _ _ (Option.some_get _).symm).2.2.2.1

/-! ## Theorems: asynchronous-reset synchronizer reset polarity (C3) -/

/-- C3: In `get_async_ff_sync`, the private local clock domain's reset is
driven by the raw source signal when the requested edge polarity is
`"pos"` and by the logical negation of the source signal otherwise, and
every stage flip-flop in the chain resets to value 1. -/
theorem async_ff_sync_reset_polarity (s : AsyncFFSyncReq) (mod : AsyncFFSyncModule)
    (h : get_async_ff_sync s = some mod) :
    (s.edge = "pos" → mod.resetDrive = SVal.src) ∧
    (s.edge ≠ "pos" → mod.resetDrive = SVal.negSrc) ∧
    (∀ f ∈ mod.flops, f.reset = 1) := by
  by_cases hs : s.stages = 0
  · simp [get_async_ff_sync, hs] at h
  · simp only [get_async_ff_sync, if_neg hs, Option.some.injEq] at h
    subst h
    refine ⟨?_, ?_, ?_⟩
    · intro he
      simp [he]
    · intro he
      simp [he]
    · intro f hf
      obtain ⟨k, hk, rfl⟩ := List.mem_map.mp hf
      simp only [stageSignal]
      split <;> rfl

/-- Witness for C3: a 2-stage positive-edge request; the private domain's
reset is driven by the raw source. -/
theorem async_ff_sync_reset_polarity_witness :
    ((get_async_ff_sync { stages := 2, o_domain := "sync", edge := "pos", max_input_delay := none }).get (by decide)).resetDrive = SVal.src :=
  (async_ff_sync_reset_polarity _ _ (Option.some_get _).symm).1 rfl

/-! ## Theorems: asynchronous-reset synchronizer chain behavior (C10) -/

/-- C10: In `get_async_ff_sync`, every stage signal is exactly 1 bit wide
regardless of the input signal's shape; the chain input of stage 0 is the
constant 0 (assignment k drives stage k); and starting from the all-ones
reset state, the synchronized output (the last stage) stays 1 for the
first S-1 clock edges and falls to 0 after exactly S target-domain clock
edges. -/
theorem async_ff_sync_chain_behavior (s : AsyncFFSyncReq) (mod : AsyncFFSyncModule)
    (h : get_async_ff_sync s = some mod) :
    (∀ f ∈ mod.flops, f.width = 1) ∧
    (∀ k (hk : k < mod.assigns.length), (mod.assigns.get ⟨k, hk⟩).lhs = k) ∧
    (∀ h0 : 0 < mod.assigns.length, (mod.assigns.get ⟨0, h0⟩).rhs = SVal.zero) ∧
    (∀ (src : Bool) (n : Nat), n < s.stages →
      (chainRun mod.assigns src (List.replicate s.stages true) n).getLast? = some true) ∧
    (∀ src : Bool,
      (chainRun mod.assigns src (List.replicate s.stages true) s.stages).getLast? =
        some false) := by
  by_cases hs : s.stages = 0
  · simp [get_async_ff_sync, hs] at h
  · simp only [get_async_ff_sync, if_neg hs, Option.some.injEq] at h
    subst h
    refine ⟨?_, ?_, ?_, ?_, ?_⟩
    · intro f hf
      obtain ⟨k, hk, rfl⟩ := List.mem_map.mp hf
      simp only [stageSignal]
      split <;> rfl
    · intro k hk
      simp [chainAssigns]
    · intro h0
      simp [chainAssigns]
    · intro src n hn
      dsimp only
      rw [chainRun_zero_chain, getLast?_map_range _ _ (by omega)]
      simp only [Option.some.injEq, decide_eq_true_eq]
      omega
    · intro src
      dsimp only
      rw [chainRun_zero_chain, getLast?_map_range _ _ (by omega)]
      simp only [Option.some.injEq, decide_eq_false_iff_not]
      omega

/-- Witness for C10: a 2-stage chain falls to 0 after exactly 2 clock
edges. -/
theorem async_ff_sync_chain_behavior_witness :
    (chainRun ((get_async_ff_sync { stages := 2, o_domain := "out", edge := "neg", max_input_delay := none }).get (by decide)).assigns true (List.replicate 2 true) 2).getLast? = some false :=
  (async_ff_sync_chain_behavior _ _ (Option.some_get _).symm).2.2.2.2 true

end X7
